import Mathlib

/-!
Shallow embedding of the kernel-side file I/O layer of eggos (`fs/vfs.go`):
the descriptor ("inode") table and its allocation/reuse policy, the syscall
handlers (`sysOpen`, `sysRead`, `sysWrite`, `sysClose`, `sysStat`,
`sysIoctl`), the `fileHelper` stream wrapper, and the dispatcher `fscall`
together with the stand-alone handlers (`sysFcntl`, `sysUname`,
`sysFstatat64`, `sysRandom`).

Go interface values and external collaborators (the afero mount root, the
console device, `math/rand`) are represented by behaviour oracles: a
`Stream` records the results the underlying Go object would return for the
calls made during one request.  Errors are errno codes or the `io.EOF`
sentinel; a nil-interface method call (a Go runtime fault) is modelled by
an `Option`-valued handler returning `none`.
-/

namespace VFS

/-- errno values used by `fs/vfs.go` (Linux numbering). -/
def ENOENT : Nat := 2
/-- errno `EBADF`. -/
def EBADF : Nat := 9
/-- errno `EINVAL`. -/
def EINVAL : Nat := 22
/-- errno `EROFS`. -/
def EROFS : Nat := 30

/-- A Go `error` value as observed by this layer: the `io.EOF` sentinel, or
any other error identified by an errno code (opaque backend errors are
carried through unchanged, so their identity is all that matters). -/
inductive IOErr where
  | eof : IOErr
  | errno (e : Nat) : IOErr
deriving DecidableEq, Repr

/-- Metadata returned by a successful `Stat` (the fields `sysStat` and
`sysFstatat64` read: `Mode()`, `ModTime().Unix()`, `Size()`). -/
structure StatInfo where
  mode : Nat
  mtimeUnix : Int
  size : Int
deriving DecidableEq, Repr

/-- The `syscall.Stat_t` fields this layer writes (`Mode`, `Mtim.Sec`,
`Size`), viewed as a typed record at the caller-supplied address. -/
structure StatT where
  mode : Nat
  mtimSec : Int
  size : Int
deriving DecidableEq, Repr

instance exceptDecEq {ε α : Type} [DecidableEq ε] [DecidableEq α] :
    DecidableEq (Except ε α) := fun a b =>
  match a, b with
  | .ok x, .ok y =>
    if h : x = y then isTrue (by rw [h]) else isFalse (by simp [h])
  | .error x, .error y =>
    if h : x = y then isTrue (by rw [h]) else isFalse (by simp [h])
  | .ok _, .error _ => isFalse (by simp)
  | .error _, .ok _ => isFalse (by simp)

/-- Behaviour oracle for an `io.ReadWriteCloser` stored in an inode: the
results the Go object would return for the single call a handler makes
during one request, plus its dynamic capabilities (the `afero.File` and
`Ioctler` type assertions). -/
structure Stream where
  /-- result of `File.Read(buf)`: byte count and error. -/
  readRes : Int × Option IOErr
  /-- result of `File.Write(buf)`. -/
  writeRes : Int × Option IOErr
  /-- result of `File.Close()` (`none` = nil error). -/
  closeRes : Option IOErr
  /-- whether the type assertion `File.(afero.File)` succeeds. -/
  isAferoFile : Bool
  /-- result of `file.Stat()` when the stream is an `afero.File`
  (never consulted otherwise: the type assertion fails first). -/
  statRes : Except IOErr StatInfo
  /-- whether the type assertion `File.(Ioctler)` succeeds. -/
  isIoctler : Bool
  /-- result of `ctl.Ioctl(op, arg)` for the forwarded op/arg. -/
  ioctlRes : Option IOErr
deriving DecidableEq, Repr

/-- Descriptor-table entry (`type Inode struct`): the owned stream (a Go
interface value, `none` = nil), the recorded fd, and the liveness flag. -/
structure Inode where
  File : Option Stream
  Fd : Int
  inuse : Bool
deriving DecidableEq, Repr

instance : Inhabited Inode := ⟨⟨none, 0, false⟩⟩

/-- `func (i *Inode) Release()`: clears liveness, drops stream ownership,
sets the fd marker to the invalid sentinel `-1`. -/
def Inode.Release (i : Inode) : Inode :=
  { i with inuse := false, File := none, Fd := -1 }

/-- The linear scan inside `AllocInode`: index of the first entry with
`inuse = false`, starting the count at `i` (mirrors the Go `for i := range
inodes { if !entry.inuse { fd = i; break } }` loop). -/
def scanFree : List Inode → Nat → Option Nat
  | [], _ => none
  | e :: rest, i => if e.inuse then scanFree rest (i + 1) else some i

/-- `func AllocInode() (int, *Inode)` acting on the global `inodes` slice.
`fd` starts at `0` and keeps the found index, so a scan that finds nothing
and a scan that finds slot `0` are indistinguishable: in both cases the
`fd == 0` branch appends a fresh entry (`new(Inode)` has a nil `File`)
whose handle is the prior length.  Returns the handle and the new table. -/
def AllocInode (tbl : List Inode) : Nat × List Inode :=
  let fd := (scanFree tbl 0).getD 0
  if fd = 0 then
    let len := tbl.length
    (len, tbl ++ [{ File := none, Fd := (len : Int), inuse := true }])
  else
    (fd, tbl.set fd { tbl.getD fd default with inuse := true, Fd := (fd : Int) })

/-- `func AllocFileNode(r io.ReadWriteCloser) (int, *Inode)`: allocate and
bind the stream to the fresh entry. -/
def AllocFileNode (tbl : List Inode) (s : Stream) : Nat × List Inode :=
  let r := AllocInode tbl
  (r.1, r.2.set r.1 { r.2.getD r.1 default with File := some s })

/-- Outcome of `GetInode`: the entry, the `EBADF` error, or a Go runtime
fault (index out of range). -/
inductive LookupResult where
  | ok (ni : Inode) : LookupResult
  | ebadf : LookupResult
  | fault : LookupResult
deriving DecidableEq, Repr

/-- `func GetInode(fd int) (*Inode, error)`.  The code checks only
`int(fd) >= len(inodes)`; a negative `fd` passes that check and the
subsequent `inodes[fd]` indexes out of range, a Go runtime fault. -/
def GetInode (tbl : List Inode) (fd : Int) : LookupResult :=
  if (tbl.length : Int) ≤ fd then .ebadf
  else if fd < 0 then .fault
  else
    let ni := tbl.getD fd.toNat default
    if ni.inuse then .ok ni else .ebadf

/-! ## The `fileHelper` stream wrapper (`NewFile`) -/

/-- Behaviour oracle for an `io.Reader` half wired into a `fileHelper`:
its read result and whether it additionally satisfies `Ioctler`. -/
structure Reader where
  readRes : Int × Option IOErr
  isIoctler : Bool
  ioctlRes : Option IOErr
deriving DecidableEq, Repr

/-- Behaviour oracle for an `io.Writer` half of a `fileHelper`. -/
structure Writer where
  writeRes : Int × Option IOErr
  isIoctler : Bool
  ioctlRes : Option IOErr
deriving DecidableEq, Repr

/-- Behaviour oracle for an `io.Closer` half of a `fileHelper`. -/
structure Closer where
  closeRes : Option IOErr
deriving DecidableEq, Repr

/-- `type fileHelper struct { r io.Reader; w io.Writer; c io.Closer }`
(`none` models a nil half). -/
structure FileHelper where
  r : Option Reader
  w : Option Writer
  c : Option Closer
deriving DecidableEq, Repr

/-- `func (r *fileHelper) Read(p []byte) (int, error)`: delegate to the
read half when wired, else `(0, syscall.EINVAL)`. -/
def FileHelper.read (fh : FileHelper) : Int × Option IOErr :=
  match fh.r with
  | some rd => rd.readRes
  | none => (0, some (.errno EINVAL))

/-- `func (r *fileHelper) Write(p []byte) (int, error)`: delegate to the
write half when wired, else `(0, syscall.EROFS)`. -/
def FileHelper.write (fh : FileHelper) : Int × Option IOErr :=
  match fh.w with
  | some wr => wr.writeRes
  | none => (0, some (.errno EROFS))

/-- `func (r *fileHelper) Ioctl(op, arg uintptr) error`: pick the read half
if non-nil, else the write half; assert `Ioctler` on it (a nil pick fails
the assertion) and forward, else `syscall.EBADF`. -/
def FileHelper.ioctl (fh : FileHelper) : Option IOErr :=
  match fh.r with
  | some rd => if rd.isIoctler then rd.ioctlRes else some (.errno EBADF)
  | none =>
    match fh.w with
    | some wr => if wr.isIoctler then wr.ioctlRes else some (.errno EBADF)
    | none => some (.errno EBADF)

/-- `func (r *fileHelper) Close() error`: delegate to the close half when
wired, else `syscall.EINVAL`. -/
def FileHelper.close (fh : FileHelper) : Option IOErr :=
  match fh.c with
  | some cl => cl.closeRes
  | none => some (.errno EINVAL)

/-- `func NewFile(r, w, c) io.ReadWriteCloser` viewed as a `Stream`
behaviour oracle: a `*fileHelper` is never an `afero.File`, and its method
set always includes `Ioctl`, so the `Ioctler` assertion on it succeeds
(its `statRes` field is never consulted because the `afero.File` assertion
fails first). -/
def NewFile (r : Option Reader) (w : Option Writer) (c : Option Closer) : Stream :=
  let fh : FileHelper := { r := r, w := w, c := c }
  { readRes := fh.read
    writeRes := fh.write
    closeRes := fh.close
    isAferoFile := false
    statRes := .error (.errno EINVAL)
    isIoctler := true
    ioctlRes := fh.ioctl }

/-! ## Syscall handlers

`cstring` and `sys.UnsafeBuffer` materialise user memory; the path and the
buffers they produce are folded into the behaviour oracles: `openRes` is
what `Root.OpenFile` returns for the request's parsed path/flags/perm, and
a stream's `readRes`/`writeRes` are the results for the materialised
buffer. -/

/-- Outcome of a facade call (`Root.OpenFile` / `Root.Stat`): success, an
error for which `os.IsNotExist` holds, or any other backend error. -/
inductive FsOutcome (α : Type) where
  | ok (a : α) : FsOutcome α
  | notExist : FsOutcome α
  | other (e : IOErr) : FsOutcome α
deriving DecidableEq, Repr

/-- The error mapping inside `sysOpen`: not-found becomes
`syscall.ENOENT`, anything else is passed through. -/
def openErrMap : FsOutcome Stream → IOErr
  | .notExist => .errno ENOENT
  | .other e => e
  | .ok _ => .errno 0

/-- `func sysOpen(dirfd, name, flags, perm uintptr) (int, error)`.
`AllocInode` runs BEFORE `Root.OpenFile`; on an open error the handler
returns the mapped error without releasing the freshly allocated entry,
which stays `inuse` with a nil stream.  Returns the new table and the
handler result. -/
def sysOpen (tbl : List Inode) (openRes : FsOutcome Stream) :
    List Inode × Except IOErr Nat :=
  let a := AllocInode tbl
  match openRes with
  | .ok f => (a.2.set a.1 { a.2.getD a.1 default with File := some f }, .ok a.1)
  | .notExist => (a.2, .error (.errno ENOENT))
  | .other e => (a.2, .error e)

/-- `func sysClose(ni *Inode) error`: `ni.File.Close()` then
`ni.Release()`, returning the close error.  A nil `File` (method call on a
nil interface) is a Go runtime fault, modelled as `none`. -/
def sysClose (ni : Inode) : Option (Inode × Option IOErr) :=
  match ni.File with
  | none => none
  | some s => some (ni.Release, s.closeRes)

/-- `func sysRead(ni *Inode, p, n uintptr) (int, error)`: the four-way
switch on the stream's result, in source order (`ret != 0` first, then
`err == io.EOF`, then `err != nil`, then the default). -/
def sysRead (ni : Inode) : Option (Int × Option IOErr) :=
  match ni.File with
  | none => none
  | some s =>
    let ret := s.readRes.1
    let err := s.readRes.2
    some (if ret ≠ 0 then (ret, none)
          else if err = some .eof then (0, none)
          else if err ≠ none then (0, err)
          else (ret, err))

/-- `func sysWrite(ni *Inode, p, n uintptr) (int, error)`: a nonzero byte
count suppresses the error, otherwise `(0, err)`. -/
def sysWrite (ni : Inode) : Option (Int × Option IOErr) :=
  match ni.File with
  | none => none
  | some s =>
    let n := s.writeRes.1
    let err := s.writeRes.2
    some (if n ≠ 0 then (n, none) else (0, err))

/-- `uint32(info.Mode())` on the mode word. -/
def toUint32 (n : Nat) : Nat := n % 2 ^ 32

/-- `int32(info.ModTime().Unix())`: signed 32-bit wrap-around. -/
def toInt32 (z : Int) : Int := (z + 2 ^ 31) % 2 ^ 32 - 2 ^ 31

/-- The three `Stat_t` fields written on a successful stat. -/
def writeStat (info : StatInfo) : StatT :=
  { mode := toUint32 info.mode
    mtimSec := toInt32 info.mtimeUnix
    size := info.size }

/-- `func sysStat(ni *Inode, statptr uintptr) error`: the `afero.File`
type assertion (false on a nil interface, so this path never faults),
then `file.Stat()`; the output structure is written only on success.
Returns the (possibly updated) stat record and the handler error. -/
def sysStat (ni : Inode) (buf : StatT) : StatT × Option IOErr :=
  match ni.File with
  | none => (buf, some (.errno EINVAL))
  | some s =>
    if s.isAferoFile then
      match s.statRes with
      | .error e => (buf, some e)
      | .ok info => (writeStat info, none)
    else (buf, some (.errno EINVAL))

/-- `func sysIoctl(ni *Inode, op, arg uintptr) error`: the `Ioctler` type
assertion (false on a nil interface), then forward. -/
def sysIoctl (ni : Inode) : Option IOErr :=
  match ni.File with
  | none => some (.errno EINVAL)
  | some s => if s.isIoctler then s.ioctlRes else some (.errno EINVAL)

/-! ## Boot (`vfsInit`)

`console.Console()` is external; its behaviour as a reader (stdin) and as
a writer (stdout/stderr) is a parameter.  `etcInit` only seeds paths in
the mount root and never touches the descriptor table, so it does not
appear here. -/

/-- `func vfsInit()`: pre-populate descriptors 0-3 (stdin, stdout, stderr,
the epoll placeholder) from the console device. -/
def vfsInit (conR : Reader) (conW : Writer) : List Inode :=
  let t0 := (AllocFileNode [] (NewFile (some conR) none none)).2
  let t1 := (AllocFileNode t0 (NewFile none (some conW) none)).2
  let t2 := (AllocFileNode t1 (NewFile none (some conW) none)).2
  (AllocFileNode t2 (NewFile none none none)).2

/-! ## Dispatcher (`fscall` and the stand-alone handlers)

A handler receives an `*isyscall.Request` and acts on it by assigning
`c.Ret` (possibly more than once) and calling `c.Done()`.  We record these
actions as a trace, one `Action` per Go statement that touches the
request, in source order, so that the single-completion claim is a
property of the trace and not of the encoding.  `isyscall.Error` /
`isyscall.Errno` both re-encode an error into the return word; the trace
keeps the error symbolic. -/

/-- A value assigned to `c.Ret`: a plain word or an encoded error. -/
inductive RetVal where
  | val (v : Int) : RetVal
  | err (e : IOErr) : RetVal
deriving DecidableEq, Repr

/-- One observable action on a request. -/
inductive Action where
  | setRet (v : RetVal) : Action
  | done : Action
deriving DecidableEq, Repr

/-- Number of `Done()` calls in a trace. -/
def countDone : List Action → Nat
  | [] => 0
  | .done :: rest => countDone rest + 1
  | .setRet _ :: rest => countDone rest

/-- The last action taken on a request. -/
def lastAction : List Action → Option Action
  | [] => none
  | [a] => some a
  | _ :: b :: rest => lastAction (b :: rest)

/-- `[.setRet (.err e)]` when the post-switch `if err != nil` fires,
else nothing. -/
def errActs : Option IOErr → List Action
  | none => []
  | some e => [.setRet (.err e)]

/-- Linux/386 syscall numbers used in `sysInit` (eggos targets GOARCH=386,
`uname` reports "x86_32"). -/
def SYS_READ : Nat := 3
/-- `syscall.SYS_WRITE` on 386. -/
def SYS_WRITE : Nat := 4
/-- `syscall.SYS_CLOSE` on 386. -/
def SYS_CLOSE : Nat := 6
/-- `syscall.SYS_IOCTL` on 386. -/
def SYS_IOCTL : Nat := 54
/-- `syscall.SYS_FCNTL` on 386. -/
def SYS_FCNTL : Nat := 55
/-- `syscall.SYS_UNAME` on 386. -/
def SYS_UNAME : Nat := 122
/-- `syscall.SYS_FSTAT64` on 386. -/
def SYS_FSTAT64 : Nat := 197
/-- `syscall.SYS_FCNTL64` on 386. -/
def SYS_FCNTL64 : Nat := 221
/-- `syscall.SYS_OPENAT` on 386. -/
def SYS_OPENAT : Nat := 295
/-- `syscall.SYS_FSTATAT64` on 386. -/
def SYS_FSTATAT64 : Nat := 300
/-- The fixed opcode registered for `sysRandom` (`SYS_GETRANDOM`). -/
def SYS_RANDOM : Nat := 355

/-- `int(x)` applied to a `uintptr` argument word on a 32-bit target:
reinterpret as signed. -/
def intOfWord (x : Nat) : Int := toInt32 (x : Int)

/-- The state a request executes against: the descriptor table, raw user
memory (byte-addressed), the process-wide `math/rand` output stream, the
argument words, the facade outcomes for the request's parsed path, and the
typed view of the caller's `Stat_t`. -/
structure SysEnv where
  inodes : List Inode
  mem : Nat → Nat
  randGen : Nat → Nat
  a0 : Nat
  a1 : Nat
  a2 : Nat
  openRes : FsOutcome Stream
  pathStatRes : FsOutcome StatInfo
  statBuf : StatT

/-- `func fscall(fn int) isyscall.Handler`: the shared handler for openat,
read, write, close, fstat64 and ioctl.  `none` models a Go runtime fault
(negative-index table access in `GetInode`, or a method call on a nil
stream).  Otherwise returns the post-request state and the action trace. -/
def fscall (fn : Nat) (env : SysEnv) : Option (SysEnv × List Action) :=
  if fn = SYS_OPENAT then
    let r := sysOpen env.inodes env.openRes
    let ret : RetVal := match r.2 with
      | .ok fd => .val (fd : Int)
      | .error e => .err e
    some ({ env with inodes := r.1 }, [.setRet ret, .done])
  else
    match GetInode env.inodes (intOfWord env.a0) with
    | .fault => none
    | .ebadf => some (env, [.setRet (.err (.errno EBADF)), .done])
    | .ok ni =>
      if fn = SYS_READ then
        match sysRead ni with
        | none => none
        | some r => some (env, .setRet (.val r.1) :: errActs r.2 ++ [.done])
      else if fn = SYS_WRITE then
        match sysWrite ni with
        | none => none
        | some r => some (env, .setRet (.val r.1) :: errActs r.2 ++ [.done])
      else if fn = SYS_CLOSE then
        match sysClose ni with
        | none => none
        | some r =>
          some ({ env with inodes := env.inodes.set (intOfWord env.a0).toNat r.1 },
                errActs r.2 ++ [.done])
      else if fn = SYS_FSTAT64 then
        let r := sysStat ni env.statBuf
        some ({ env with statBuf := r.1 }, errActs r.2 ++ [.done])
      else if fn = SYS_IOCTL then
        some (env, errActs (sysIoctl ni) ++ [.done])
      else
        some (env, [.done])

/-- `func sysFcntl(call *isyscall.Request)`: no-op, returns 0. -/
def sysFcntl (env : SysEnv) : SysEnv × List Action :=
  (env, [.setRet (.val 0), .done])

/-- `func sysUname(c *isyscall.Request)`: fills the fixed identification
record at `Args[0]` with constants, then returns 0 (the constant text
writes land in user memory and no claim depends on them, so only the
request actions are traced). -/
def sysUname (env : SysEnv) : SysEnv × List Action :=
  (env, [.setRet (.val 0), .done])

/-- `func sysFstatat64(c *isyscall.Request)`: stat by path via the facade;
not-found maps to `ENOENT`, other errors pass through, success writes the
three `Stat_t` fields and returns 0. -/
def sysFstatat64 (env : SysEnv) : SysEnv × List Action :=
  match env.pathStatRes with
  | .notExist => (env, [.setRet (.err (.errno ENOENT)), .done])
  | .other e => (env, [.setRet (.err e), .done])
  | .ok info =>
    ({ env with statBuf := writeStat info }, [.setRet (.val 0), .done])

/-- `func sysRandom(call *isyscall.Request)`: `rand.Read` fills the whole
`Args[1]`-byte buffer at `Args[0]` from the process-wide generator (it is
documented to always return `len(p)` and a nil error), and `Ret` is set to
the requested length. -/
def sysRandom (env : SysEnv) : SysEnv × List Action :=
  ({ env with
      mem := fun a =>
        if env.a0 ≤ a ∧ a < env.a0 + env.a1 then env.randGen (a - env.a0)
        else env.mem a },
   [.setRet (.val (env.a1 : Int)), .done])

/-- `func sysInit()`: the opcode routing table.  `none` for an opcode with
no registered handler, or for a registered handler that hits a Go runtime
fault. -/
def dispatch (fn : Nat) (env : SysEnv) : Option (SysEnv × List Action) :=
  if fn = SYS_OPENAT ∨ fn = SYS_WRITE ∨ fn = SYS_READ ∨ fn = SYS_CLOSE ∨
      fn = SYS_FSTAT64 ∨ fn = SYS_IOCTL then
    fscall fn env
  else if fn = SYS_FCNTL ∨ fn = SYS_FCNTL64 then some (sysFcntl env)
  else if fn = SYS_FSTATAT64 then some (sysFstatat64 env)
  else if fn = SYS_UNAME then some (sysUname env)
  else if fn = SYS_RANDOM then some (sysRandom env)
  else none

/-! ## Allocation scenarios (for the reuse-policy property) -/

/-- The table after `n` successive `AllocInode` calls starting from the
empty table. -/
def allocN : Nat → List Inode
  | 0 => []
  | n + 1 => (AllocInode (allocN n)).2

/-- Release the entry at index `k` (`inodes[k].Release()`). -/
def releaseAt (k : Nat) (tbl : List Inode) : List Inode :=
  tbl.set k (tbl.getD k default).Release

/-- The entry `AllocInode` appends when it starts from a table of `i`
all-in-use entries. -/
def freshEntry (i : Nat) : Inode := { File := none, Fd := (i : Int), inuse := true }

/-- A table of `n` in-use entries with handles `0..n-1`, the shape
`allocN n` produces. -/
def inuseRun (n : Nat) : List Inode := (List.range n).map freshEntry

/-- A stream with neither the `afero.File` nor the `Ioctler` capability
(e.g. a plain `mem.File` would have the former; this one has neither). -/
def plainStream : Stream :=
  { readRes := (0, some .eof)
    writeRes := (0, none)
    closeRes := some (.errno 5)
    isAferoFile := false
    statRes := .error (.errno 5)
    isIoctler := false
    ioctlRes := none }

/-- A stream that transfers 7 bytes while also reporting an error, on both
the read and the write side. -/
def shortXferStream : Stream :=
  { plainStream with
      readRes := (7, some (.errno 5))
      writeRes := (7, some (.errno 5)) }

/-- A concrete request environment used to instantiate proved properties. -/
def envEx : SysEnv :=
  { inodes := []
    mem := fun _ => 0
    randGen := fun i => i + 1
    a0 := 100
    a1 := 3
    a2 := 0
    openRes := .notExist
    pathStatRes := .notExist
    statBuf := { mode := 0, mtimSec := 0, size := 0 } }

/-! ## Helper lemmas -/

theorem scanFree_eq_none {l : List Inode} (h : ∀ e ∈ l, e.inuse = true) :
    ∀ i, scanFree l i = none := by
  induction l with
  | nil => intro i; rfl
  | cons a t ih =>
    intro i
    have ha : a.inuse = true := h a (by simp)
    simp only [scanFree, ha, if_true]
    exact ih (fun e he => h e (by simp [he])) (i + 1)

theorem scanFree_set (l : List Inode) :
    ∀ (k i : Nat), (∀ e ∈ l, e.inuse = true) → k < l.length →
    ∀ rel : Inode, rel.inuse = false → scanFree (l.set k rel) i = some (i + k) := by
  induction l with
  | nil => intro k i _ hk; simp at hk
  | cons a t ih =>
    intro k i h hk rel hrel
    cases k with
    | zero => simp [List.set, scanFree, hrel]
    | succ k =>
      have ha : a.inuse = true := h a (by simp)
      simp only [List.set, scanFree, ha, if_true]
      rw [ih k (i + 1) (fun e he => h e (by simp [he])) (by simpa using hk) rel hrel]
      congr 1
      omega

theorem inuseRun_all {n : Nat} : ∀ e ∈ inuseRun n, e.inuse = true := by
  intro e he
  simp only [inuseRun, List.mem_map] at he
  obtain ⟨i, _, rfl⟩ := he
  rfl

theorem inuseRun_length (n : Nat) : (inuseRun n).length = n := by
  simp [inuseRun]

theorem allocN_eq (n : Nat) : allocN n = inuseRun n := by
  induction n with
  | zero => rfl
  | succ n ih =>
    show (AllocInode (allocN n)).2 = _
    rw [ih]
    unfold AllocInode
    rw [scanFree_eq_none inuseRun_all 0]
    simp only [Option.getD_none, if_pos rfl, inuseRun_length]
    rw [inuseRun, inuseRun, List.range_succ, List.map_append]
    rfl

theorem release_eq (i : Inode) : i.Release = { File := none, Fd := -1, inuse := false } :=
  rfl

theorem getD_zero_set_append (l : List Inode) (hl : 0 < l.length)
    (rel x : Inode) : (l.set 0 rel ++ [x]).getD 0 default = rel := by
  cases l with
  | nil => simp at hl
  | cons a t => rfl

theorem countDone_errActs_done (e : Option IOErr) :
    countDone (errActs e ++ [.done]) = 1 := by
  cases e <;> rfl

theorem lastAction_errActs_done (e : Option IOErr) :
    lastAction (errActs e ++ [.done]) = some .done := by
  cases e <;> rfl

theorem countDone_cons_errActs_done (v : RetVal) (e : Option IOErr) :
    countDone (.setRet v :: errActs e ++ [.done]) = 1 := by
  cases e <;> rfl

theorem lastAction_cons_errActs_done (v : RetVal) (e : Option IOErr) :
    lastAction (.setRet v :: errActs e ++ [.done]) = some .done := by
  cases e <;> rfl

theorem vfsInit_eq (conR : Reader) (conW : Writer) :
    vfsInit conR conW =
      [{ File := some (NewFile (some conR) none none), Fd := 0, inuse := true },
       { File := some (NewFile none (some conW) none), Fd := 1, inuse := true },
       { File := some (NewFile none (some conW) none), Fd := 2, inuse := true },
       { File := some (NewFile none none none), Fd := 3, inuse := true }] := by
  simp [vfsInit, AllocFileNode, AllocInode, scanFree, List.getD]

/-! ## Claims -/

/-- C1: the claim says a failing open leaves the descriptor table
unchanged, with no entry becoming in-use.  The code calls `AllocInode`
before `Root.OpenFile` and never releases the entry on failure: after
boot (descriptors 0-3 in use), opening a missing path does return the
encoded `ENOENT`, but the table has grown to five entries and the new
entry at index 4 is in-use with a nil stream — a leaked descriptor, for
any console behaviour. -/
theorem c1_open_failure_leaks_descriptor (conR : Reader) (conW : Writer) :
    (vfsInit conR conW).length = 4 ∧
    (sysOpen (vfsInit conR conW) .notExist).2 = .error (.errno ENOENT) ∧
    (sysOpen (vfsInit conR conW) .notExist).1.length = 5 ∧
    ((sysOpen (vfsInit conR conW) .notExist).1.getD 4 default).inuse = true ∧
    ((sysOpen (vfsInit conR conW) .notExist).1.getD 4 default).File = none := by
  rw [vfsInit_eq]
  refine ⟨rfl, rfl, ?_, ?_, ?_⟩ <;>
    simp [sysOpen, AllocInode, scanFree, List.getD]

/-- C2: first-free-ascending reuse with handle 0 excluded.  After
allocating `N` descriptors from an empty table and releasing the one at
index `k`, the next allocation returns handle `k` when `k > 0`; when
`k = 0` it instead appends a fresh entry whose handle is the prior table
length `N`, leaving slot 0 unused. -/
theorem c2_alloc_first_free_reuse (N k : Nat) (hk : k < N) :
    (0 < k → (AllocInode (releaseAt k (allocN N))).1 = k) ∧
    (k = 0 →
      (AllocInode (releaseAt k (allocN N))).1 = N ∧
      (AllocInode (releaseAt k (allocN N))).2.length = N + 1 ∧
      ((AllocInode (releaseAt k (allocN N))).2.getD 0 default).inuse = false) := by
  have htbl : releaseAt k (allocN N) =
      (inuseRun N).set k { File := none, Fd := -1, inuse := false } := by
    rw [releaseAt, allocN_eq, release_eq]
  have hscan :
      scanFree ((inuseRun N).set k { File := none, Fd := -1, inuse := false }) 0
        = some k := by
    have h := scanFree_set (inuseRun N) k 0 inuseRun_all
      (by rwa [inuseRun_length]) { File := none, Fd := -1, inuse := false } rfl
    simpa using h
  constructor
  · intro hkpos
    rw [htbl]
    simp only [AllocInode, hscan, Option.getD_some]
    rw [if_neg (by omega)]
  · intro hk0
    subst hk0
    rw [htbl]
    simp only [AllocInode, hscan, Option.getD_some, if_true, ite_true, reduceIte]
    refine ⟨?_, ?_, ?_⟩
    · simp [inuseRun_length]
    · simp [inuseRun_length]
    · rw [getD_zero_set_append _ (by simp [inuseRun_length]; omega)]

/-- C2 witness: with three descriptors allocated, releasing index 1 and
allocating again returns handle 1; releasing index 0 instead appends and
returns handle 3, with slot 0 still unused. -/
theorem c2_alloc_first_free_reuse_witness :
    ((0 < 1 → (AllocInode (releaseAt 1 (allocN 3))).1 = 1) ∧
      (1 = 0 →
        (AllocInode (releaseAt 1 (allocN 3))).1 = 3 ∧
        (AllocInode (releaseAt 1 (allocN 3))).2.length = 3 + 1 ∧
        ((AllocInode (releaseAt 1 (allocN 3))).2.getD 0 default).inuse = false)) ∧
    ((0 < 0 → (AllocInode (releaseAt 0 (allocN 3))).1 = 0) ∧
      (0 = 0 →
        (AllocInode (releaseAt 0 (allocN 3))).1 = 3 ∧
        (AllocInode (releaseAt 0 (allocN 3))).2.length = 3 + 1 ∧
        ((AllocInode (releaseAt 0 (allocN 3))).2.getD 0 default).inuse = false)) :=
  ⟨c2_alloc_first_free_reuse 3 1 (by decide), c2_alloc_first_free_reuse 3 0 (by decide)⟩

/-- C3 counterexample: the claim says lookup on any out-of-range handle,
negative handles included, returns `BadDescriptor`.  `GetInode` only
checks the upper bound, so on a one-entry table the handle `-1` passes
the check and the table access `inodes[-1]` is a Go runtime fault
(index out of range), not an `EBADF` return. -/
theorem c3_negative_handle_cex :
    GetInode [{ File := none, Fd := 0, inuse := true }] (-1) = .fault ∧
    GetInode [{ File := none, Fd := 0, inuse := true }] (-1) ≠ .ebadf := by
  decide

/-- C3 amended: for every non-negative handle that is out of range, and
every in-range handle whose entry has been released, `GetInode` returns
`EBADF`; it never returns an entry that is not in use.  (Negative handles
are not range-checked and fault instead.) -/
theorem c3_lookup_amended (tbl : List Inode) (fd : Int) :
    (((tbl.length : Int) ≤ fd ∨
        0 ≤ fd ∧ fd < tbl.length ∧ (tbl.getD fd.toNat default).inuse = false) →
      GetInode tbl fd = .ebadf) ∧
    (∀ ni, GetInode tbl fd = .ok ni → ni.inuse = true) := by
  constructor
  · rintro (h | ⟨h0, hlt, hfalse⟩)
    · simp only [GetInode]
      rw [if_pos h]
    · simp only [GetInode]
      rw [if_neg (by omega), if_neg (by omega), if_neg (by rw [hfalse]; decide)]
  · intro ni h
    simp only [GetInode] at h
    split at h
    · exact absurd h (by simp)
    · split at h
      · exact absurd h (by simp)
      · split at h
        · rename_i huse
          cases h
          exact huse
        · exact absurd h (by simp)

/-- C3 witness: on a one-entry table whose entry is released, handle 0 is
rejected with `EBADF`, and the out-of-range handle 7 likewise. -/
theorem c3_lookup_amended_witness :
    GetInode [{ File := none, Fd := -1, inuse := false }] 0 = .ebadf ∧
    GetInode [{ File := none, Fd := -1, inuse := false }] 7 = .ebadf :=
  ⟨(c3_lookup_amended [{ File := none, Fd := -1, inuse := false }] 0).1
      (Or.inr (by decide)),
    (c3_lookup_amended [{ File := none, Fd := -1, inuse := false }] 7).1
      (Or.inl (by decide))⟩

/-- C4: on an open descriptor whose stream fails the `afero.File`
assertion, `sysStat` returns `EINVAL` and leaves the caller's stat record
untouched; on one whose stream fails the `Ioctler` assertion, `sysIoctl`
returns `EINVAL`. -/
theorem c4_missing_capability_einval (ni : Inode) (s : Stream) (buf : StatT)
    (hFile : ni.File = some s) :
    (s.isAferoFile = false → sysStat ni buf = (buf, some (.errno EINVAL))) ∧
    (s.isIoctler = false → sysIoctl ni = some (.errno EINVAL)) := by
  constructor
  · intro h
    simp [sysStat, hFile, h]
  · intro h
    simp [sysIoctl, hFile, h]

/-- C4 witness: a descriptor holding a stream with neither capability gets
`EINVAL` from both fstat (stat record untouched) and ioctl. -/
theorem c4_missing_capability_einval_witness :
    sysStat { File := some plainStream, Fd := 0, inuse := true }
        { mode := 1, mtimSec := 2, size := 3 }
      = ({ mode := 1, mtimSec := 2, size := 3 }, some (.errno EINVAL)) ∧
    sysIoctl { File := some plainStream, Fd := 0, inuse := true }
      = some (.errno EINVAL) :=
  ⟨(c4_missing_capability_einval _ plainStream _ rfl).1 rfl,
    (c4_missing_capability_einval
        { File := some plainStream, Fd := 0, inuse := true } plainStream
        { mode := 1, mtimSec := 2, size := 3 } rfl).2 rfl⟩

/-- C5: `sysClose` closes the stream first and releases the entry
unconditionally — liveness cleared, stream ownership dropped, handle set
to the `-1` sentinel — and the stream's close error (if any) is still the
returned error. -/
theorem c5_close_releases_and_surfaces_error (ni : Inode) (s : Stream)
    (_hUse : ni.inuse = true) (hFile : ni.File = some s) :
    sysClose ni = some ({ File := none, Fd := -1, inuse := false }, s.closeRes) := by
  simp [sysClose, hFile, Inode.Release]

/-- C5 witness: closing a live descriptor whose stream reports error 5
still releases the entry and returns that error. -/
theorem c5_close_releases_and_surfaces_error_witness :
    sysClose { File := some plainStream, Fd := 2, inuse := true }
      = some ({ File := none, Fd := -1, inuse := false }, some (.errno 5)) :=
  c5_close_releases_and_surfaces_error _ plainStream rfl rfl

/-- C6: a stream at end-of-stream reports `(0, io.EOF)`; `sysRead` maps
this to a zero count with a nil error — a successful zero-byte read. -/
theorem c6_eof_reads_zero_success (ni : Inode) (s : Stream)
    (hFile : ni.File = some s) (hEof : s.readRes = (0, some .eof)) :
    sysRead ni = some (0, none) := by
  simp [sysRead, hFile, hEof]

/-- C6 witness: reading the concrete exhausted stream yields `(0, nil)`. -/
theorem c6_eof_reads_zero_success_witness :
    sysRead { File := some plainStream, Fd := 0, inuse := true } = some (0, none) :=
  c6_eof_reads_zero_success _ plainStream rfl rfl

/-- C7 counterexample: the claim says a read on a stream built without a
read half fails with a WriteOnly-class error.  On a write-only
`fileHelper` (the stdout/stderr shape, `NewFile(nil, console, nil)`) the
read fails with `syscall.EINVAL` — the very code this layer uses for
InvalidArgument — and not with `EROFS`, the only wrong-direction errno
the wrapper knows. -/
theorem c7_read_error_class_cex :
    (FileHelper.read
        { r := none, w := some { writeRes := (2, none), isIoctler := false, ioctlRes := none },
          c := none }).2
      = some (.errno EINVAL) ∧ EINVAL ≠ EROFS := by
  decide

/-- C7 amended: a stream built without a write half fails writes with the
ReadOnly error `EROFS`; a stream built without a read half fails reads
with `EINVAL` (the InvalidArgument code), not a distinct WriteOnly-class
error. -/
theorem c7_direction_errors (fh : FileHelper) :
    (fh.r = none → fh.read = (0, some (.errno EINVAL))) ∧
    (fh.w = none → fh.write = (0, some (.errno EROFS))) := by
  constructor
  · intro h
    simp [FileHelper.read, h]
  · intro h
    simp [FileHelper.write, h]

/-- C7 witness: the epoll-placeholder shape (no halves wired) fails reads
with `EINVAL` and writes with `EROFS`. -/
theorem c7_direction_errors_witness :
    FileHelper.read { r := none, w := none, c := none } = (0, some (.errno EINVAL)) ∧
    FileHelper.write { r := none, w := none, c := none } = (0, some (.errno EROFS)) :=
  ⟨(c7_direction_errors { r := none, w := none, c := none }).1 rfl,
    (c7_direction_errors { r := none, w := none, c := none }).2 rfl⟩

/-- C8: when a stream transfers a nonzero byte count and reports an error
in the same call, `sysRead` and `sysWrite` return the count with a nil
error — the stream's error is discarded, never surfaced. -/
theorem c8_nonzero_transfer_discards_error (ni : Inode) (s : Stream)
    (n : Int) (e : IOErr) (hFile : ni.File = some s) (hn : n ≠ 0) :
    (s.readRes = (n, some e) → sysRead ni = some (n, none)) ∧
    (s.writeRes = (n, some e) → sysWrite ni = some (n, none)) := by
  constructor
  · intro h
    simp [sysRead, hFile, h, hn]
  · intro h
    simp [sysWrite, hFile, h, hn]

/-- C8 witness: a stream that moves 7 bytes while reporting error 5 makes
both read and write come back as a 7-byte success. -/
theorem c8_nonzero_transfer_discards_error_witness :
    sysRead { File := some shortXferStream, Fd := 0, inuse := true } = some (7, none) ∧
    sysWrite { File := some shortXferStream, Fd := 0, inuse := true } = some (7, none) :=
  ⟨(c8_nonzero_transfer_discards_error _ _ 7 (.errno 5) rfl (by decide)).1 rfl,
    (c8_nonzero_transfer_discards_error _ _ 7 (.errno 5) rfl (by decide)).2 rfl⟩

/-- C9: every request a registered handler runs to completion fires
`Done()` exactly once, and it is the last action taken on the request —
on the open success/failure paths, the descriptor-resolution failure
path, and every handler success/error path. -/
theorem c9_done_exactly_once_and_last (fn : Nat) (env env' : SysEnv)
    (tr : List Action) (h : dispatch fn env = some (env', tr)) :
    countDone tr = 1 ∧ lastAction tr = some .done := by
  unfold dispatch at h
  split at h
  · unfold fscall at h
    split at h
    · simp only [Option.some.injEq, Prod.mk.injEq] at h
      obtain ⟨-, rfl⟩ := h
      exact ⟨rfl, rfl⟩
    · split at h
      · exact Option.noConfusion h
      · simp only [Option.some.injEq, Prod.mk.injEq] at h
        obtain ⟨-, rfl⟩ := h
        exact ⟨rfl, rfl⟩
      · split at h
        · split at h
          · exact Option.noConfusion h
          · simp only [Option.some.injEq, Prod.mk.injEq] at h
            obtain ⟨-, rfl⟩ := h
            exact ⟨countDone_cons_errActs_done _ _, lastAction_cons_errActs_done _ _⟩
        · split at h
          · split at h
            · exact Option.noConfusion h
            · simp only [Option.some.injEq, Prod.mk.injEq] at h
              obtain ⟨-, rfl⟩ := h
              exact ⟨countDone_cons_errActs_done _ _, lastAction_cons_errActs_done _ _⟩
          · split at h
            · split at h
              · exact Option.noConfusion h
              · simp only [Option.some.injEq, Prod.mk.injEq] at h
                obtain ⟨-, rfl⟩ := h
                exact ⟨countDone_errActs_done _, lastAction_errActs_done _⟩
            · split at h
              · simp only [Option.some.injEq, Prod.mk.injEq] at h
                obtain ⟨-, rfl⟩ := h
                exact ⟨countDone_errActs_done _, lastAction_errActs_done _⟩
              · split at h
                · simp only [Option.some.injEq, Prod.mk.injEq] at h
                  obtain ⟨-, rfl⟩ := h
                  exact ⟨countDone_errActs_done _, lastAction_errActs_done _⟩
                · simp only [Option.some.injEq, Prod.mk.injEq] at h
                  obtain ⟨-, rfl⟩ := h
                  exact ⟨rfl, rfl⟩
  · split at h
    · simp only [sysFcntl, Option.some.injEq, Prod.mk.injEq] at h
      obtain ⟨-, rfl⟩ := h
      exact ⟨rfl, rfl⟩
    · split at h
      · unfold sysFstatat64 at h
        split at h <;>
          · simp only [Option.some.injEq, Prod.mk.injEq] at h
            obtain ⟨-, rfl⟩ := h
            exact ⟨rfl, rfl⟩
      · split at h
        · simp only [sysUname, Option.some.injEq, Prod.mk.injEq] at h
          obtain ⟨-, rfl⟩ := h
          exact ⟨rfl, rfl⟩
        · split at h
          · simp only [sysRandom, Option.some.injEq, Prod.mk.injEq] at h
            obtain ⟨-, rfl⟩ := h
            exact ⟨rfl, rfl⟩
          · exact Option.noConfusion h

/-- C9 witness: an fcntl request completes with one final `Done()`. -/
theorem c9_done_exactly_once_and_last_witness :
    countDone [.setRet (.val 0), .done] = 1 ∧
    lastAction [.setRet (.val 0), .done] = some .done :=
  c9_done_exactly_once_and_last SYS_FCNTL envEx envEx [.setRet (.val 0), .done] rfl

/-- C10: the random-fill handler always sets the result to the requested
length — never a partial count, never an error — and overwrites the whole
target buffer from the process-wide generator. -/
theorem c10_random_fills_full_length (env : SysEnv) :
    (sysRandom env).2 = [.setRet (.val (env.a1 : Int)), .done] ∧
    ∀ i, i < env.a1 → (sysRandom env).1.mem (env.a0 + i) = env.randGen i := by
  refine ⟨rfl, ?_⟩
  intro i hi
  show (if env.a0 ≤ env.a0 + i ∧ env.a0 + i < env.a0 + env.a1 then
          env.randGen (env.a0 + i - env.a0)
        else env.mem (env.a0 + i)) = env.randGen i
  rw [if_pos ⟨Nat.le_add_right _ _, by omega⟩]
  congr 1
  omega

/-- C10 witness: a 3-byte request at address 100 returns 3 and fills the
three target bytes from the generator. -/
theorem c10_random_fills_full_length_witness :
    (sysRandom envEx).2 = [.setRet (.val (envEx.a1 : Int)), .done] ∧
    ∀ i, i < envEx.a1 → (sysRandom envEx).1.mem (envEx.a0 + i) = envEx.randGen i :=
  c10_random_fills_full_length envEx

end VFS
